import Mathlib

/-!
Shallow embedding of the IPL_Predictor backend core, used to check the
natural-language specification against the source.

Source files embedded here:
  * `backend/preprocessing/feature_engineering.py` — `aggregate_features`,
    `clean_data` (pandas groupby/filter pipeline over ball-by-ball rows).
  * `backend/model/predict.py` — the module-level model cache
    (`_cached_model` / `_model_path`, function `load_model`), the
    required-field validation and the column reordering of `predict_match`
    and `batch_predict`.
  * `backend/model/train.py` — the training-time feature column lists.
  * `backend/app.py` — the `/api/predict` request validation.

Modelling conventions:
  * pandas `NaN`-able cells are `Option` fields; groupby `agg('first')`
    returns the first non-null value of the group (pandas skips nulls),
    modelled by `(g.filterMap f).head?`.
  * float division with `replace([inf, -inf], 0).fillna(0)` is modelled by
    `pdiv` into a sum type with explicit `inf`/`ninf`/`nan` points followed
    by `scrubNonFinite`; all finite arithmetic is over `ℚ`.
  * pandas `groupby` emits groups keyed by the distinct key triples; the
    claims under study never depend on row order, so groups are emitted in
    first-occurrence order rather than pandas' key-sorted order.
  * In-place mutation of the caller's DataFrame (pandas column assignment)
    is made observable by having each pipeline function also return the
    state of its input frame after the call.
-/

/-- `drop_duplicates(keep='first')`: keep the first occurrence of each
element, preserving order.  `seen` accumulates the elements already kept. -/
def dedupAux {α : Type} [DecidableEq α] : List α → List α → List α
  | [], _ => []
  | x :: xs, seen => if x ∈ seen then dedupAux xs seen else x :: dedupAux xs (x :: seen)

/-- pandas `DataFrame.drop_duplicates()` on a list of rows. -/
def dedupFirst {α : Type} [DecidableEq α] (l : List α) : List α :=
  dedupAux l []

/-- One ball-by-ball row of the raw IPL data, with the fields read by
`aggregate_features`.  Nullable CSV cells are `Option`s.  `is_wicket` is the
column that `aggregate_features` assigns into the caller's frame
(`df['is_wicket'] = df['wicket_kind'].notna().astype(int)`); it is absent
(`none`) until that mutation happens. -/
structure Delivery where
  match_id : Nat
  innings : Nat
  batting_team : String
  bowling_team : Option String
  venue : Option String
  city : Option String
  season : Option String
  ball : Option ℚ
  runs_batter : Int
  runs_extras : Int
  wicket_kind : Option String
  match_won_by : Option String
  is_wicket : Option Int := none
deriving DecidableEq, Repr

/-- One aggregated innings row: the columns selected by
`aggregate_features`'s `final_features` projection (`winner` is dropped
there and so is not a field). -/
structure InningsSummary where
  match_id : Nat
  innings : Nat
  season : Option String
  venue : Option String
  city : Option String
  batting_team : String
  bowling_team : Option String
  total_runs : Int
  total_wickets : Nat
  balls_faced : Nat
  overs_played : ℚ
  run_rate : ℚ
  extras_total : Option Int
  target : Int
deriving DecidableEq, Repr

/-- Result of a pandas float division: finite, `inf`, `-inf`, or `NaN`. -/
inductive PFloat
  | fin (q : ℚ)
  | inf
  | ninf
  | nan
deriving DecidableEq, Repr

/-- pandas float division `a / b` with its special values at `b = 0`. -/
def pdiv (a b : ℚ) : PFloat :=
  if b = 0 then (if 0 < a then .inf else if a < 0 then .ninf else .nan)
  else .fin (a / b)

/-- `replace([np.inf, -np.inf], 0)` followed by `fillna(0)` applied to a
single division result. -/
def scrubNonFinite : PFloat → ℚ
  | .fin q => q
  | _ => 0

/-- The three-part groupby key `(match_id, innings, batting_team)`. -/
def deliveryKey (d : Delivery) : Nat × Nat × String :=
  (d.match_id, d.innings, d.batting_team)

/-- The in-place column assignment
`df['is_wicket'] = df['wicket_kind'].notna().astype(int)` on one row. -/
def addIsWicket (d : Delivery) : Delivery :=
  { d with is_wicket := some (if d.wicket_kind.isSome then 1 else 0) }

/-- Forget the `is_wicket` column of a row (used to state that
`aggregate_features` changes nothing else in the caller's frame). -/
def stripIsWicket (d : Delivery) : Delivery :=
  { d with is_wicket := none }

/-- The `agg('first')` value of `match_won_by` for the group keyed `k`:
the first non-null value, or `none` when all are null. -/
def winnerOf (df : List Delivery) (k : Nat × Nat × String) : Option String :=
  ((df.filter (fun d => deliveryKey d = k)).filterMap (fun d => d.match_won_by)).head?

/-- The aggregation and derived-feature computation of `aggregate_features`
for the single group keyed by `k`: the `groupby(...).agg({...})` sums and
counts, the renames, `total_runs`, `overs_played  = balls_faced / 6`,
`run_rate` with its non-finite values replaced by `0`, and
`target = (batting_team == winner).astype(int)`.  `is_wicket` sums the
`0/1` indicator of `wicket_kind` being non-null, so it is the count of
deliveries whose `wicket_kind` is non-null; `'ball': 'count'` counts the
non-null `ball` cells of the group. -/
def aggGroup (df : List Delivery) (k : Nat × Nat × String) : InningsSummary :=
  let g := df.filter (fun d => deliveryKey d = k)
  let runs_off_bat_total := (g.map (fun d => d.runs_batter)).sum
  let extras_total := (g.map (fun d => d.runs_extras)).sum
  let total_wickets := g.countP (fun d => d.wicket_kind.isSome)
  let balls_faced := g.countP (fun d => d.ball.isSome)
  let winner := winnerOf df k
  let total_runs := runs_off_bat_total + extras_total
  let overs_played : ℚ := (balls_faced : ℚ) / 6
  let run_rate := scrubNonFinite (pdiv (total_runs : ℚ) overs_played)
  { match_id := k.1
    innings := k.2.1
    season := (g.filterMap (fun d => d.season)).head?
    venue := (g.filterMap (fun d => d.venue)).head?
    city := (g.filterMap (fun d => d.city)).head?
    batting_team := k.2.2
    bowling_team := (g.filterMap (fun d => d.bowling_team)).head?
    total_runs := total_runs
    total_wickets := total_wickets
    balls_faced := balls_faced
    overs_played := overs_played
    run_rate := run_rate
    extras_total := some extras_total
    target := if winner = some k.2.2 then 1 else 0 }

/-- `aggregate_features(df)`: one `InningsSummary` per distinct
`(match_id, innings, batting_team)` triple.  The second component is the
caller's frame after the call: the function assigns the `is_wicket` column
into its input before grouping (adding a column changes no row's group
membership or aggregated fields, so grouping is computed from the original
rows). -/
def aggregate_features (df : List Delivery) : List InningsSummary × List Delivery :=
  ((dedupFirst (df.map deliveryKey)).map (aggGroup df), df.map addIsWicket)

/-- The `fillna` step of `clean_data`: `city` defaults to `"Unknown"`,
`extras_total` defaults to `0`. -/
def fillRow (r : InningsSummary) : InningsSummary :=
  { r with city := some (r.city.getD "Unknown"), extras_total := some (r.extras_total.getD 0) }

/-- `clean_data(df)`: `dropna(subset=['batting_team','bowling_team','venue',
'target'])` (here `batting_team` and `target` are non-nullable columns, so
only `bowling_team` and `venue` can drop a row), then the `overs_played > 0`
filter, the `run_rate <= 50` outlier filter, the `fillna` defaults, and
`drop_duplicates()`.  The second component is the caller's frame after the
call: every step operates on fresh frames (the `fillna` assignments happen
on an explicit `.copy()`), so the input is returned unchanged. -/
def clean_data (df : List InningsSummary) : List InningsSummary × List InningsSummary :=
  let s1 := df.filter (fun r => r.bowling_team.isSome && r.venue.isSome)
  let s2 := s1.filter (fun r => decide (0 < r.overs_played))
  let s3 := s2.filter (fun r => decide (r.run_rate ≤ 50))
  let s4 := s3.map fillRow
  (dedupFirst s4, df)

/-- What the filesystem holds at a model path: no file, a file that
`joblib.load` fails on, or a loadable artifact (model handles are `Nat`
identifiers). -/
inductive Artifact
  | absent
  | corrupt
  | good (m : Nat)
deriving DecidableEq, Repr

/-- The two module-level globals of `predict.py`:
`_cached_model` and `_model_path`. -/
structure ModelCache where
  cachedModel : Option Nat
  modelPath : Option String
deriving DecidableEq, Repr

/-- The two failure modes of `load_model`: `FileNotFoundError` raised when
`os.path.exists` is false, and the exception re-raised when `joblib.load`
fails. -/
inductive LoadErr
  | fileNotFound
  | loadFailed
deriving DecidableEq, Repr

deriving instance DecidableEq for Except

/-- Outcome of one `load_model` call: the returned value or raised error,
the globals after the call, and whether the artifact was deserialized
during this call. -/
structure LoadResult where
  out : Except LoadErr Nat
  st : ModelCache
  deserialized : Bool
deriving DecidableEq, Repr

/-- `load_model(model_path)` as a transition on the globals, given the
filesystem `fs`.  The cache-hit test is the source's
`_cached_model is not None and _model_path == model_path`.  On a raised
error neither global is assigned (the assignments sit after the raising
statements in the `try` body). -/
def load_model (fs : String → Artifact) (p : String) (st : ModelCache) : LoadResult :=
  if st.cachedModel.isSome ∧ st.modelPath = some p then
    { out := .ok (st.cachedModel.getD 0), st := st, deserialized := false }
  else
    match fs p with
    | .absent => { out := .error .fileNotFound, st := st, deserialized := false }
    | .corrupt => { out := .error .loadFailed, st := st, deserialized := false }
    | .good m => { out := .ok m, st := { cachedModel := some m, modelPath := some p }, deserialized := true }

/-! ### Interleaved-access model of `load_model`

`load_model` has no lock: between the cache check and the
`joblib.load`/assignment, another thread can run.  Each caller is modelled
with two atomic phases: phase 0 reads the globals and either returns the
cached handle or falls through; phase 1 deserializes (incrementing a load
counter; each deserialization yields a fresh handle identity) and publishes
the result.  Both callers request the same fixed path. -/

/-- The shared globals plus a count of deserializations performed. -/
structure CStore where
  cache : Option Nat
  cpath : Option String
  loads : Nat
deriving DecidableEq, Repr

/-- One caller: program counter (0 = before the cache check, 1 = between
check and load, 2 = returned) and the handle it returned. -/
structure CThread where
  pc : Nat
  res : Option Nat
deriving DecidableEq, Repr

/-- Two concurrent callers of `load_model` over the shared globals. -/
structure CSys where
  store : CStore
  t0 : CThread
  t1 : CThread
deriving DecidableEq, Repr

/-- The single model path both callers pass to `load_model`. -/
def mpath : String := "model.pkl"

/-- One atomic phase of a caller: the cache check (source line
`if _cached_model is not None and _model_path == model_path`), or the
deserialize-and-publish (source lines `_cached_model = joblib.load(...);
_model_path = model_path; return _cached_model`). -/
def threadStep (s : CStore) (t : CThread) : CStore × CThread :=
  match t.pc with
  | 0 =>
    if s.cache.isSome ∧ s.cpath = some mpath then (s, { pc := 2, res := s.cache })
    else (s, { t with pc := 1 })
  | 1 =>
    ({ cache := some s.loads, cpath := some mpath, loads := s.loads + 1 },
     { pc := 2, res := some s.loads })
  | _ => (s, t)

/-- Run one atomic phase of the scheduled caller (`false` = first caller). -/
def sysStep (sys : CSys) (c : Bool) : CSys :=
  match c with
  | false =>
    { sys with store := (threadStep sys.store sys.t0).1, t0 := (threadStep sys.store sys.t0).2 }
  | true =>
    { sys with store := (threadStep sys.store sys.t1).1, t1 := (threadStep sys.store sys.t1).2 }

/-- Run a whole schedule of interleaved phases. -/
def runSys (sys : CSys) (sched : List Bool) : CSys :=
  sched.foldl sysStep sys

/-- Cold start: empty cache, no loads, both callers before their check. -/
def initSys : CSys :=
  ⟨⟨none, none, 0⟩, ⟨0, none⟩, ⟨0, none⟩⟩

/-- Inductive invariant of the interleaved system: the load count never
exceeds the number of returned callers (phrased as three if-free bounds),
any populated cache witnesses at least one load, and a caller returns only
once the cache is populated. -/
def SysInv (sys : CSys) : Prop :=
  (sys.t0.pc ≠ 2 ∧ sys.t1.pc ≠ 2 → sys.store.loads = 0) ∧
  (sys.t0.pc ≠ 2 ∨ sys.t1.pc ≠ 2 → sys.store.loads ≤ 1) ∧
  sys.store.loads ≤ 2 ∧
  (sys.store.cache.isSome = true → 1 ≤ sys.store.loads) ∧
  (sys.t0.pc = 2 → sys.store.cache.isSome = true) ∧
  (sys.t1.pc = 2 → sys.store.cache.isSome = true)

/-! ### Predictor and request validation -/

/-- A JSON value as far as the validation code distinguishes them: a JSON
null, a number, a string holding a numeric literal (Python's `float` parses
it), or any other string. -/
inductive Val
  | null
  | num (q : ℚ)
  | numStr (q : ℚ)
  | str (s : String)
deriving DecidableEq, Repr

/-- A JSON object / `input_dict`: a mapping from key to value, `none`
meaning the key is absent. -/
def JRow := String → Option Val

/-- Python `float(value)` on a JSON value: numbers and numeric strings
convert, anything else raises `ValueError`/`TypeError` (modelled `none`). -/
def toNum : Val → Option ℚ
  | .num q => some q
  | .numStr q => some q
  | _ => none

/-- `required_fields` of `predict_match` and of the `/api/predict`
handler (identical lists). -/
def required_fields : List String :=
  ["batting_team", "bowling_team", "venue", "city",
   "total_runs", "total_wickets", "overs_played",
   "extras_total", "run_rate"]

/-- `feature_columns` of `predict_match` and `batch_predict`: the column
order imposed by `input_df = input_df[feature_columns]`. -/
def feature_columns : List String :=
  ["batting_team", "bowling_team", "venue", "city",
   "total_runs", "total_wickets", "run_rate",
   "extras_total", "overs_played"]

/-- `categorical_features` of `train_model`. -/
def categorical_features : List String :=
  ["batting_team", "bowling_team", "venue", "city"]

/-- `numerical_features` of `train_model`. -/
def numerical_features : List String :=
  ["total_runs", "total_wickets", "run_rate", "extras_total", "overs_played"]

/-- `feature_columns = categorical_features + numerical_features` of
`train_model`: the training-time column selection `X = df[feature_columns]`. -/
def train_feature_columns : List String :=
  categorical_features ++ numerical_features

/-- The required fields absent from a request, in declaration order: the
handler's `[field for field in required_fields if field not in data]`. -/
def absentFields (input : JRow) : List String :=
  required_fields.filter (fun f => (input f).isNone)

/-- The field `predict_match`'s validation loop raises about: the first
required field not in `input_dict` (the loop raises on the first hit). -/
def firstMissing (input : JRow) : Option String :=
  required_fields.find? (fun f => (input f).isNone)

/-- The `ValueError` message raised by `predict_match`'s validation loop,
when some required field is missing. -/
def predictMatchError (input : JRow) : Option String :=
  (firstMissing input).map (fun f => "Missing required field: " ++ f)

/-- The column projection/reorder `input_df[feature_columns]` applied to a
mapping-of-columns input: `none` models the `KeyError` pandas raises when a
selected column is absent; otherwise the output carries exactly the
selected columns, in selection order, dropping all others. -/
def reorder (row : JRow) : Option (List (String × Val)) :=
  if feature_columns.all (fun c => (row c).isSome) then
    some (feature_columns.filterMap (fun c => (row c).map (fun v => (c, v))))
  else none

/-- Outcome of the `/api/predict` handler's validation, before any model
work: the 400 response listing the missing fields, a 400 response for a
field-level rule violation, or success — the validated (numerically
coerced) data that is passed on to `predict_match`. -/
inductive ApiResult
  | missingFieldsError (missing : List String)
  | fieldError (msg : String)
  | success (d : JRow)

/-- The handler's `numeric_fields` list. -/
def numeric_fields : List String :=
  ["total_runs", "total_wickets", "overs_played", "extras_total", "run_rate"]

/-- The handler's numeric-coercion loop: for each field in order,
`data[field] = float(data[field])` (error `"... must be a valid number"` on
parse failure) then the `< 0` check (error `"... cannot be negative"`).
The write-back is modelled as a function override.  A `none` lookup cannot
occur when the loop runs (the missing-fields check precedes it); it is
mapped to the parse-failure error. -/
def coerceNumerics : List String → JRow → Except String JRow
  | [], d => .ok d
  | f :: fs, d =>
    match (d f).bind toNum with
    | none => .error (f ++ " must be a valid number")
    | some q =>
      if q < 0 then .error (f ++ " cannot be negative")
      else coerceNumerics fs (fun g => if g = f then some (.num q) else d g)

/-- Read a numeric field after coercion (total lookup; after a successful
`coerceNumerics` pass the field is guaranteed to hold `.num`). -/
def getNumD (d : JRow) (f : String) : ℚ :=
  match d f with
  | some (.num q) => q
  | _ => 0

/-- The `/api/predict` handler's validation pipeline, in source order:
missing-fields check, numeric coercion loop, `overs_played > 20`,
`total_wickets > 10`, `batting_team == bowling_team`.  Only `success`
invokes `predict_match` (and hence the model) afterwards. -/
def predictEndpoint (data : JRow) : ApiResult :=
  if absentFields data ≠ [] then .missingFieldsError (absentFields data)
  else
    match coerceNumerics numeric_fields data with
    | .error m => .fieldError m
    | .ok d =>
      if getNumD d "overs_played" > 20 then
        .fieldError "overs_played cannot exceed 20 in T20 cricket"
      else if getNumD d "total_wickets" > 10 then
        .fieldError "total_wickets cannot exceed 10"
      else if d "batting_team" = d "bowling_team" then
        .fieldError "batting_team and bowling_team must be different"
      else .success d

/-- Whether the handler's validation accepted the request (so the model is
invoked). -/
def isSuccess : ApiResult → Bool
  | .success _ => true
  | _ => false

/-- The guarantees holding for any request data that reaches inference:
distinct teams, all five numeric fields coerced to nonnegative numbers,
`overs_played ≤ 20` and `total_wickets ≤ 10`.  (Integrality of
`total_wickets` is not among them.) -/
def validatedOk (d : JRow) : Prop :=
  d "batting_team" ≠ d "bowling_team" ∧
  (∀ f ∈ numeric_fields, ∃ q : ℚ, d f = some (.num q) ∧ 0 ≤ q) ∧
  getNumD d "overs_played" ≤ 20 ∧
  getNumD d "total_wickets" ≤ 10

/-- Lift `validatedOk` over the handler outcome: rejected requests carry no
obligation, accepted ones satisfy `validatedOk`. -/
def preInferenceSound : ApiResult → Prop
  | .success d => validatedOk d
  | _ => True

/-! ### Concrete inputs used by witnesses and counterexamples -/

/-- A one-delivery input frame: match 1, innings 1, team A batting, a ball
worth 4 off the bat and 1 extra, no wicket, match won by A. -/
def exDf1 : List Delivery :=
  [{ match_id := 1, innings := 1, batting_team := "A", bowling_team := some "B",
     venue := some "V", city := some "C", season := some "2020", ball := some 1,
     runs_batter := 4, runs_extras := 1, wicket_kind := none, match_won_by := some "A" }]

/-- The innings summary `aggregate_features` produces from `exDf1`
(one ball: `total_runs = 5`, `balls_faced = 1`, `overs_played = 1/6`,
`run_rate = 30`, `target = 1`). -/
def exRow1 : InningsSummary := aggGroup exDf1 (1, 1, "A")

/-- A one-delivery frame whose `is_wicket` column is absent before any
call. -/
def exDf0 : List Delivery :=
  [{ match_id := 1, innings := 1, batting_team := "A", bowling_team := some "B",
     venue := some "V", city := some "C", season := some "2020", ball := some 1,
     runs_batter := 0, runs_extras := 0, wicket_kind := none, match_won_by := none }]

/-- A filesystem with two loadable artifacts. -/
def exFs : String → Artifact := fun q =>
  if q = "a.pkl" then .good 7 else if q = "b.pkl" then .good 9 else .absent

/-- A complete, valid prediction input that also carries one extra key
(`season`), which the Feature Contract projection must drop. -/
def exC1Row : JRow := fun f =>
  if f = "batting_team" then some (.str "Mumbai Indians")
  else if f = "bowling_team" then some (.str "Chennai Super Kings")
  else if f = "venue" then some (.str "Wankhede Stadium")
  else if f = "city" then some (.str "Mumbai")
  else if f = "total_runs" then some (.num 180)
  else if f = "total_wickets" then some (.num 5)
  else if f = "overs_played" then some (.num 20)
  else if f = "extras_total" then some (.num 12)
  else if f = "run_rate" then some (.num 9)
  else if f = "season" then some (.str "2020")
  else none

/-- A prediction input missing exactly two required fields, `city` and
`run_rate`. -/
def exMissInput : JRow := fun f =>
  if f = "batting_team" then some (.str "A")
  else if f = "bowling_team" then some (.str "B")
  else if f = "venue" then some (.str "V")
  else if f = "total_runs" then some (.num 180)
  else if f = "total_wickets" then some (.num 5)
  else if f = "overs_played" then some (.num 20)
  else if f = "extras_total" then some (.num 12)
  else none

/-- The rational `19/2 = 9.5`, built in lowest terms. -/
def halfQ : ℚ := ⟨19, 2, by norm_num, by norm_num⟩

/-- A request whose `total_wickets` is `9.5`: inside `[0, 10]` as a number
but not an integer. -/
def exC7Row : JRow := fun f =>
  if f = "batting_team" then some (.str "A")
  else if f = "bowling_team" then some (.str "B")
  else if f = "venue" then some (.str "V")
  else if f = "city" then some (.str "C")
  else if f = "total_runs" then some (.num 180)
  else if f = "total_wickets" then some (.num halfQ)
  else if f = "overs_played" then some (.num 20)
  else if f = "extras_total" then some (.num 12)
  else if f = "run_rate" then some (.num 9)
  else none

/-! ### Helper lemmas -/

theorem mem_of_mem_dedupAux {α : Type} [DecidableEq α] {a : α} :
    ∀ {l seen : List α}, a ∈ dedupAux l seen → a ∈ l := by
  intro l
  induction l with
  | nil => intro seen h; simp [dedupAux] at h
  | cons x xs ih =>
    intro seen h
    by_cases hx : x ∈ seen
    · simp only [dedupAux, if_pos hx] at h
      exact List.mem_cons_of_mem _ (ih h)
    · simp only [dedupAux, if_neg hx, List.mem_cons] at h
      rcases h with h | h
      · exact h ▸ List.mem_cons_self _ _
      · exact List.mem_cons_of_mem _ (ih h)

theorem mem_of_mem_dedupFirst {α : Type} [DecidableEq α] {a : α} {l : List α}
    (h : a ∈ dedupFirst l) : a ∈ l :=
  mem_of_mem_dedupAux h

theorem dedupAux_nodup_disjoint {α : Type} [DecidableEq α] :
    ∀ (l seen : List α), (dedupAux l seen).Nodup ∧ ∀ a ∈ dedupAux l seen, a ∉ seen := by
  intro l
  induction l with
  | nil => intro seen; simp [dedupAux]
  | cons x xs ih =>
    intro seen
    by_cases hx : x ∈ seen
    · simpa only [dedupAux, if_pos hx] using ih seen
    · obtain ⟨hnd, hdisj⟩ := ih (x :: seen)
      refine ⟨?_, ?_⟩
      · simp only [dedupAux, if_neg hx, List.nodup_cons]
        exact ⟨fun hmem => (hdisj x hmem) (List.mem_cons_self _ _), hnd⟩
      · intro a ha
        simp only [dedupAux, if_neg hx, List.mem_cons] at ha
        rcases ha with rfl | ha
        · exact hx
        · intro hs
          exact (hdisj a ha) (List.mem_cons_of_mem _ hs)

theorem dedupFirst_nodup {α : Type} [DecidableEq α] (l : List α) :
    (dedupFirst l).Nodup :=
  (dedupAux_nodup_disjoint l []).1

theorem dedupAux_eq_self {α : Type} [DecidableEq α] :
    ∀ (l seen : List α), l.Nodup → (∀ a ∈ l, a ∉ seen) → dedupAux l seen = l := by
  intro l
  induction l with
  | nil => intro seen _ _; rfl
  | cons x xs ih =>
    intro seen hnd hdisj
    have hx : x ∉ seen := hdisj x (List.mem_cons_self _ _)
    rw [List.nodup_cons] at hnd
    simp only [dedupAux, if_neg hx]
    congr 1
    refine ih (x :: seen) hnd.2 ?_
    intro a ha
    simp only [List.mem_cons, not_or]
    exact ⟨fun h => hnd.1 (h ▸ ha), hdisj a (List.mem_cons_of_mem _ ha)⟩

theorem dedupFirst_eq_self {α : Type} [DecidableEq α] {l : List α} (h : l.Nodup) :
    dedupFirst l = l :=
  dedupAux_eq_self l [] h (by simp)

theorem scrub_pdiv_zero (a : ℚ) : scrubNonFinite (pdiv a 0) = 0 := by
  simp only [pdiv, if_pos rfl]
  split_ifs <;> rfl

theorem scrub_pdiv_ne_zero (a b : ℚ) (hb : b ≠ 0) :
    scrubNonFinite (pdiv a b) = a / b := by
  simp [pdiv, hb, scrubNonFinite]

theorem proj_map_fst (row : JRow) :
    ∀ cols : List String, (∀ c ∈ cols, (row c).isSome = true) →
      (cols.filterMap (fun c => (row c).map (fun v => (c, v)))).map Prod.fst = cols := by
  intro cols
  induction cols with
  | nil => intro _; rfl
  | cons c cs ih =>
    intro h
    obtain ⟨v, hv⟩ := Option.isSome_iff_exists.mp (h c (List.mem_cons_self _ _))
    simp only [List.filterMap_cons, hv, Option.map_some', List.map_cons]
    exact congrArg (List.cons c) (ih (fun x hx => h x (List.mem_cons_of_mem _ hx)))

theorem coerce_sound :
    ∀ (fs : List String) (d d' : JRow) (S : List String),
      coerceNumerics fs d = .ok d' →
      (∀ f ∈ S, ∃ q : ℚ, d f = some (.num q) ∧ 0 ≤ q) →
      ∀ f, f ∈ S ∨ f ∈ fs → ∃ q : ℚ, d' f = some (.num q) ∧ 0 ≤ q := by
  intro fs
  induction fs with
  | nil =>
    intro d d' S h hS f hf
    simp only [coerceNumerics, Except.ok.injEq] at h
    rcases hf with hf | hf
    · exact h ▸ hS f hf
    · simp at hf
  | cons f0 fs ih =>
    intro d d' S h hS f hf
    simp only [coerceNumerics] at h
    rcases hm : (d f0).bind toNum with _ | q
    · rw [hm] at h; simp at h
    · rw [hm] at h
      dsimp only at h
      by_cases hq : q < 0
      · rw [if_pos hq] at h; simp at h
      · rw [if_neg hq] at h
        have hgood : ∀ g ∈ f0 :: S,
            ∃ r : ℚ, (fun g => if g = f0 then some (.num q) else d g) g = some (.num r) ∧ 0 ≤ r := by
          intro g hg
          by_cases hgf : g = f0
          · exact ⟨q, by simp [hgf], le_of_not_lt hq⟩
          · rcases List.mem_cons.mp hg with h' | h'
            · exact absurd h' hgf
            · obtain ⟨r, hr, hr0⟩ := hS g h'
              exact ⟨r, by simp [hgf, hr], hr0⟩
        refine ih _ d' (f0 :: S) h hgood f ?_
        rcases hf with hf | hf
        · exact Or.inl (List.mem_cons_of_mem _ hf)
        · rcases List.mem_cons.mp hf with rfl | hf
          · exact Or.inl (List.mem_cons_self _ _)
          · exact Or.inr hf

theorem aggGroup_run_rate (df : List Delivery) (k : Nat × Nat × String) :
    (aggGroup df k).run_rate =
      scrubNonFinite (pdiv ((aggGroup df k).total_runs : ℚ) ((aggGroup df k).overs_played)) := rfl

theorem aggGroup_target (df : List Delivery) (k : Nat × Nat × String) :
    (aggGroup df k).target = if winnerOf df k = some k.2.2 then 1 else 0 := rfl

theorem aggGroup_batting (df : List Delivery) (k : Nat × Nat × String) :
    (aggGroup df k).batting_team = k.2.2 := rfl

theorem aggGroup_match_id (df : List Delivery) (k : Nat × Nat × String) :
    (aggGroup df k).match_id = k.1 := rfl

theorem aggGroup_innings (df : List Delivery) (k : Nat × Nat × String) :
    (aggGroup df k).innings = k.2.1 := rfl

theorem fillRow_fillRow (r : InningsSummary) : fillRow (fillRow r) = fillRow r := by
  cases r
  simp [fillRow]

theorem clean_kept (rows : List InningsSummary) :
    ∀ r ∈ (clean_data rows).1,
      (r.bowling_team.isSome && r.venue.isSome) = true ∧
      0 < r.overs_played ∧ r.run_rate ≤ 50 ∧ fillRow r = r := by
  intro r hr
  simp only [clean_data] at hr
  obtain ⟨y, hy3, rfl⟩ := List.mem_map.mp (mem_of_mem_dedupFirst hr)
  have hy2 := List.mem_filter.mp hy3
  have hy1 := List.mem_filter.mp hy2.1
  have hy0 := List.mem_filter.mp hy1.1
  refine ⟨hy0.2, ?_, ?_, fillRow_fillRow y⟩
  · exact of_decide_eq_true hy1.2
  · exact of_decide_eq_true hy2.2

theorem clean_data_idem_aux (rows : List InningsSummary) :
    (clean_data ((clean_data rows).1)).1 = (clean_data rows).1 := by
  have hkept := clean_kept rows
  have hnd : ((clean_data rows).1).Nodup := by
    simp only [clean_data]
    exact dedupFirst_nodup _
  generalize hgen : (clean_data rows).1 = out at hkept hnd ⊢
  have h1 : out.filter (fun r => r.bowling_team.isSome && r.venue.isSome) = out :=
    List.filter_eq_self.mpr (fun a ha => (hkept a ha).1)
  have h2 : out.filter (fun r => decide (0 < r.overs_played)) = out :=
    List.filter_eq_self.mpr (fun a ha => decide_eq_true (hkept a ha).2.1)
  have h3 : out.filter (fun r => decide (r.run_rate ≤ 50)) = out :=
    List.filter_eq_self.mpr (fun a ha => decide_eq_true (hkept a ha).2.2.1)
  have h4 : out.map fillRow = out := by
    rw [List.map_congr_left (fun a ha => (hkept a ha).2.2.2)]
    exact List.map_id _
  simp only [clean_data]
  rw [h1, h2, h3, h4, dedupFirst_eq_self hnd]

theorem stripIsWicket_addIsWicket (d : Delivery) :
    stripIsWicket (addIsWicket d) = stripIsWicket d := by
  cases d
  simp [stripIsWicket, addIsWicket]

theorem sysInv_init : SysInv initSys := by
  refine ⟨?_, ?_, ?_, ?_, ?_, ?_⟩ <;> simp [initSys, SysInv]

theorem sysInv_step (sys : CSys) (c : Bool) (h : SysInv sys) : SysInv (sysStep sys c) := by
  obtain ⟨⟨cache, cpath, loads⟩, ⟨pc0, r0⟩, ⟨pc1, r1⟩⟩ := sys
  obtain ⟨h1, h2, h3, h4, h5, h6⟩ := h
  replace h1 : pc0 ≠ 2 ∧ pc1 ≠ 2 → loads = 0 := h1
  replace h2 : pc0 ≠ 2 ∨ pc1 ≠ 2 → loads ≤ 1 := h2
  replace h3 : loads ≤ 2 := h3
  replace h4 : cache.isSome = true → 1 ≤ loads := h4
  replace h5 : pc0 = 2 → cache.isSome = true := h5
  replace h6 : pc1 = 2 → cache.isSome = true := h6
  simp only [SysInv]
  cases c
  · rcases pc0 with _ | _ | n
    · by_cases hc : cache.isSome = true ∧ cpath = some mpath
      · simp only [sysStep, threadStep]
        rw [if_pos hc]
        exact ⟨fun hd => absurd rfl hd.1, fun _ => h2 (by omega), h3, h4, fun _ => hc.1, h6⟩
      · simp only [sysStep, threadStep]
        rw [if_neg hc]
        exact ⟨fun hd => h1 (by omega), fun _ => h2 (by omega), h3, h4,
          fun hd => absurd hd (by simp), h6⟩
    · simp only [sysStep, threadStep]
      refine ⟨fun hd => absurd rfl hd.1, ?_, ?_, fun _ => by omega, fun _ => rfl, fun _ => rfl⟩
      · intro hd
        have hz : loads = 0 := h1 (by omega)
        omega
      · have ho : loads ≤ 1 := h2 (by omega)
        omega
    · simp only [sysStep, threadStep]
      exact ⟨h1, h2, h3, h4, h5, h6⟩
  · rcases pc1 with _ | _ | n
    · by_cases hc : cache.isSome = true ∧ cpath = some mpath
      · simp only [sysStep, threadStep]
        rw [if_pos hc]
        exact ⟨fun hd => absurd rfl hd.2, fun _ => h2 (by omega), h3, h4, h5, fun _ => hc.1⟩
      · simp only [sysStep, threadStep]
        rw [if_neg hc]
        exact ⟨fun hd => h1 (by omega), fun _ => h2 (by omega), h3, h4, h5,
          fun hd => absurd hd (by simp)⟩
    · simp only [sysStep, threadStep]
      refine ⟨fun hd => absurd rfl hd.2, ?_, ?_, fun _ => by omega, fun _ => rfl, fun _ => rfl⟩
      · intro hd
        have hz : loads = 0 := h1 (by omega)
        omega
      · have ho : loads ≤ 1 := h2 (by omega)
        omega
    · simp only [sysStep, threadStep]
      exact ⟨h1, h2, h3, h4, h5, h6⟩

theorem sysInv_run (sched : List Bool) :
    ∀ sys : CSys, SysInv sys → SysInv (runSys sys sched) := by
  induction sched with
  | nil => intro sys h; exact h
  | cons c cs ih =>
    intro sys h
    exact ih (sysStep sys c) (sysInv_step sys c h)

/-! ### Claim theorems -/

/-- C1: for every prediction input mapping containing all nine Feature
Contract columns (plus possibly extra keys), the reordering step
`input_df[feature_columns]` of `predict_match` and `batch_predict` yields a
structure whose columns are exactly `[batting_team, bowling_team, venue,
city, total_runs, total_wickets, run_rate, extras_total, overs_played]` in
that order, dropping every extra key — and this list coincides with the
training-time selection `categorical_features + numerical_features`. -/
theorem c1_feature_contract_projection :
    feature_columns = train_feature_columns ∧
    ∀ row : JRow, (∀ c ∈ feature_columns, (row c).isSome = true) →
      (reorder row).map (fun l => l.map Prod.fst) = some feature_columns := by
  refine ⟨by decide, ?_⟩
  intro row h
  unfold reorder
  rw [if_pos (List.all_eq_true.mpr h)]
  simp only [Option.map_some']
  exact congrArg some (proj_map_fst row feature_columns h)

/-- C1 witness: the projection applied to a complete input carrying the
extra key `season`. -/
theorem c1_witness :
    (reorder exC1Row).map (fun l => l.map Prod.fst) = some feature_columns :=
  c1_feature_contract_projection.2 exC1Row (by decide)

/-- C2 (amended): `load_model` has no lock, so under interleaved concurrent
first access the artifact may be deserialized up to once per caller and the
callers may observe distinct handles; every completed pair of calls has
performed at least one and at most two deserializations, and when the two
calls are serialized (first caller runs to completion before the second
starts) exactly one deserialization occurs and both callers share the
handle. -/
theorem c2_single_flight_amended :
    (∀ sched : List Bool, (runSys initSys sched).store.loads ≤ 2) ∧
    (∀ sched : List Bool,
      (runSys initSys sched).t0.pc = 2 → (runSys initSys sched).t1.pc = 2 →
        1 ≤ (runSys initSys sched).store.loads) ∧
    runSys initSys [false, false, true] =
      ⟨⟨some 0, some mpath, 1⟩, ⟨2, some 0⟩, ⟨2, some 0⟩⟩ := by
  have hinv : ∀ sched : List Bool, SysInv (runSys initSys sched) :=
    fun sched => sysInv_run sched initSys sysInv_init
  refine ⟨fun sched => (hinv sched).2.2.1, ?_, by decide⟩
  intro sched h0 h1
  exact (hinv sched).2.2.2.1 ((hinv sched).2.2.2.2.1 h0)

/-- C2 witness: in the serialized schedule both callers complete and at
least one (indeed exactly one) deserialization has happened. -/
theorem c2_witness : 1 ≤ (runSys initSys [false, false, true]).store.loads :=
  c2_single_flight_amended.2.1 [false, false, true] (by decide) (by decide)

/-- C2 counterexample: the interleaving check/check/load/load makes both
callers deserialize (two loads) and hand back distinct model handles,
refuting exactly-once loading and shared handle identity. -/
theorem c2_counterexample :
    (runSys initSys [false, true, false, true]).store.loads = 2 ∧
    (runSys initSys [false, true, false, true]).t0.res ≠
      (runSys initSys [false, true, false, true]).t1.res := by
  decide

/-- C3: every row produced by `aggregate_features` has
`run_rate = total_runs / overs_played` when `overs_played > 0` and
`run_rate = 0` when `overs_played = 0`; `run_rate` is a plain rational, so
it is never `NaN` or `±Infinity` (the non-finite division results are
replaced by `0`). -/
theorem c3_run_rate_well_defined :
    ∀ (df : List Delivery) (row : InningsSummary), row ∈ (aggregate_features df).1 →
      (0 < row.overs_played → row.run_rate = (row.total_runs : ℚ) / row.overs_played) ∧
      (row.overs_played = 0 → row.run_rate = 0) := by
  intro df row hrow
  simp only [aggregate_features] at hrow
  obtain ⟨k, _, rfl⟩ := List.mem_map.mp hrow
  constructor
  · intro hpos
    rw [aggGroup_run_rate, scrub_pdiv_ne_zero _ _ (ne_of_gt hpos)]
  · intro hz
    rw [aggGroup_run_rate, hz, scrub_pdiv_zero]

/-- C3 witness: the single-ball innings of `exDf1` has positive overs and
its `run_rate` equals `total_runs / overs_played`. -/
theorem c3_witness :
    exRow1.run_rate = (exRow1.total_runs : ℚ) / exRow1.overs_played :=
  (c3_run_rate_well_defined exDf1 exRow1 (by
      rw [show (aggregate_features exDf1).1 = [exRow1] from rfl]
      exact List.mem_singleton_self _)).1
    (by rw [show exRow1.overs_played = ((1 : Nat) : ℚ) / 6 from rfl]; norm_num)

/-- C4: every row produced by `aggregate_features` has `target = 1` iff
`batting_team` equals the group's winner (the first non-null `match_won_by`
of the row's group), and for a match whose deliveries all have null
`match_won_by` every innings row of that match has `target = 0`. -/
theorem c4_target_iff_winner :
    ∀ (df : List Delivery) (row : InningsSummary), row ∈ (aggregate_features df).1 →
      (row.target = 1 ↔
        winnerOf df (row.match_id, row.innings, row.batting_team) = some row.batting_team) ∧
      ((∀ d ∈ df, d.match_id = row.match_id → d.match_won_by = none) → row.target = 0) := by
  intro df row hrow
  simp only [aggregate_features] at hrow
  obtain ⟨k, _, rfl⟩ := List.mem_map.mp hrow
  obtain ⟨k1, k2, k3⟩ := k
  constructor
  · rw [aggGroup_target, aggGroup_match_id, aggGroup_innings, aggGroup_batting]
    split_ifs with hw
    · simp [hw]
    · simp [hw]
  · intro hall
    rw [aggGroup_target]
    have hnone : winnerOf df (k1, k2, k3) = none := by
      unfold winnerOf
      have hmapnil :
          (df.filter (fun d => deliveryKey d = (k1, k2, k3))).filterMap
            (fun d => d.match_won_by) = [] := by
        rw [List.filterMap_eq_nil_iff]
        intro a ha
        have hmem := List.mem_filter.mp ha
        have hkey : deliveryKey a = (k1, k2, k3) := of_decide_eq_true hmem.2
        exact hall a hmem.1 (congrArg (fun t => t.1) hkey)
      rw [hmapnil]
      rfl
    simp [hnone]

/-- C4 witness: the single-innings aggregate of `exDf1` (match won by the
batting team) has `target = 1` and satisfies the iff. -/
theorem c4_witness :
    exRow1.target = 1 ↔
      winnerOf exDf1 (exRow1.match_id, exRow1.innings, exRow1.batting_team) =
        some exRow1.batting_team :=
  (c4_target_iff_winner exDf1 exRow1 (by
      rw [show (aggregate_features exDf1).1 = [exRow1] from rfl]
      exact List.mem_singleton_self _)).1

/-- C5: sequential cache semantics of `load_model`: a first call with a
path loads and populates the cache; a repeat call with the cached path
returns the cached handle without deserializing; a call with a different
path evicts the old entry and loads the new artifact. -/
theorem c5_model_cache_semantics :
    ∀ (fs : String → Artifact) (p p' : String) (m m' : Nat),
      (fs p = .good m → load_model fs p ⟨none, none⟩ = ⟨.ok m, ⟨some m, some p⟩, true⟩) ∧
      load_model fs p ⟨some m, some p⟩ = ⟨.ok m, ⟨some m, some p⟩, false⟩ ∧
      (p' ≠ p → fs p' = .good m' →
        load_model fs p' ⟨some m, some p⟩ = ⟨.ok m', ⟨some m', some p'⟩, true⟩) := by
  intro fs p p' m m'
  refine ⟨?_, ?_, ?_⟩
  · intro h
    simp [load_model, h]
  · simp [load_model]
  · intro hne h
    simp [load_model, h, Ne.symm hne]

/-- C5 witness: the three cache behaviours on a concrete filesystem with
artifacts at `a.pkl` and `b.pkl`. -/
theorem c5_witness :
    load_model exFs "a.pkl" ⟨none, none⟩ = ⟨.ok 7, ⟨some 7, some "a.pkl"⟩, true⟩ ∧
    load_model exFs "a.pkl" ⟨some 7, some "a.pkl"⟩ = ⟨.ok 7, ⟨some 7, some "a.pkl"⟩, false⟩ ∧
    load_model exFs "b.pkl" ⟨some 7, some "a.pkl"⟩ = ⟨.ok 9, ⟨some 9, some "b.pkl"⟩, true⟩ :=
  ⟨(c5_model_cache_semantics exFs "a.pkl" "b.pkl" 7 9).1 (by decide),
   (c5_model_cache_semantics exFs "a.pkl" "b.pkl" 7 9).2.1,
   (c5_model_cache_semantics exFs "a.pkl" "b.pkl" 7 9).2.2 (by decide) (by decide)⟩

/-- C6 (amended): the `/api/predict` handler's missing-field rejection lists
every absent required column (in declaration order), while `predict_match`'s
own validation loop raises about only the first missing field. -/
theorem c6_missing_fields_endpoint :
    ∀ input : JRow, absentFields input ≠ [] →
      predictEndpoint input = .missingFieldsError (absentFields input) ∧
      ∀ f : String, f ∈ absentFields input ↔ f ∈ required_fields ∧ (input f).isNone = true := by
  intro input h
  refine ⟨?_, ?_⟩
  · unfold predictEndpoint
    rw [if_pos h]
  · intro f
    simp [absentFields, List.mem_filter]

/-- C6 witness: on an input missing `city` and `run_rate`, the handler's
error carries both fields. -/
theorem c6_witness :
    predictEndpoint exMissInput = .missingFieldsError ["city", "run_rate"] :=
  (c6_missing_fields_endpoint exMissInput (by decide)).1.trans
    (congrArg ApiResult.missingFieldsError (by decide))

/-- C6 counterexample: with both `city` and `run_rate` absent,
`predict_match`'s validation raises `Missing required field: city` — a
message naming only the first missing column, not the also-absent
`run_rate` — so the missing-feature failure of `predict_match` does not
list every absent required column. -/
theorem c6_counterexample :
    absentFields exMissInput = ["city", "run_rate"] ∧
    predictMatchError exMissInput = some "Missing required field: city" ∧
    "city" ≠ "run_rate" := by
  decide

/-- C7 (amended): every request accepted by the `/api/predict` validation
(and therefore the only ones for which `predict_match` and the model are
invoked) has distinct teams, all five numeric fields parsed to nonnegative
numbers, `overs_played ≤ 20` and `total_wickets ≤ 10`; violating requests
are rejected pre-inference.  (Integrality of `total_wickets` is not
enforced.) -/
theorem c7_request_validation :
    ∀ data : JRow, preInferenceSound (predictEndpoint data) := by
  intro data
  unfold predictEndpoint
  by_cases habs : absentFields data ≠ []
  · rw [if_pos habs]
    trivial
  · rw [if_neg habs]
    rcases hco : coerceNumerics numeric_fields data with m | d
    · trivial
    · dsimp only
      split_ifs with h1 h2 h3
      · trivial
      · trivial
      · trivial
      · refine ⟨h3, ?_, le_of_not_lt h1, le_of_not_lt h2⟩
        intro f hf
        exact coerce_sound numeric_fields data d [] hco (by simp) f (Or.inr hf)

/-- C7 counterexample: a request with `total_wickets = 9.5` — not an
integer (denominator 2), though inside `[0, 10]` — passes validation and
reaches inference, refuting the claimed integrality check. -/
theorem c7_counterexample :
    isSuccess (predictEndpoint exC7Row) = true ∧
    exC7Row "total_wickets" = some (.num halfQ) ∧ halfQ.den ≠ 1 := by
  refine ⟨by decide, by decide, by decide⟩

/-- C8: the Cleaner is idempotent — a second `clean_data` pass over its own
output removes no rows and changes no values. -/
theorem c8_cleaner_idempotent :
    ∀ rows : List InningsSummary, (clean_data ((clean_data rows).1)).1 = (clean_data rows).1 :=
  clean_data_idem_aux

/-- C9 (amended): `clean_data` leaves its caller's input unchanged, and
`aggregate_features` changes the caller's input only by assigning the
`is_wicket` column — every other column of every row is preserved. -/
theorem c9_frame_amended :
    ∀ (rows : List InningsSummary) (df : List Delivery),
      (clean_data rows).2 = rows ∧
      ((aggregate_features df).2).map stripIsWicket = df.map stripIsWicket := by
  intro rows df
  refine ⟨rfl, ?_⟩
  simp only [aggregate_features, List.map_map]
  exact List.map_congr_left (fun d _ => stripIsWicket_addIsWicket d)

/-- C9 counterexample: on a one-row frame without an `is_wicket` column,
the caller's frame after `aggregate_features` differs from the frame before
the call, refuting that `aggregate_features` leaves its input unchanged. -/
theorem c9_counterexample : (aggregate_features exDf0).2 ≠ exDf0 := by
  decide

/-- C10: when `load_model` fails (missing file or failing deserialization),
the cache globals are unchanged and nothing was deserialized, and a
subsequent call with the previously cached path still returns the old
handle without reloading. -/
theorem c10_failed_load_preserves_cache :
    ∀ (fs : String → Artifact) (p : String) (st : ModelCache) (e : LoadErr),
      (load_model fs p st).out = .error e →
      (load_model fs p st).st = st ∧ (load_model fs p st).deserialized = false ∧
      ∀ (m : Nat) (p0 : String), st = ⟨some m, some p0⟩ →
        load_model fs p0 st = ⟨.ok m, st, false⟩ := by
  intro fs p st e herr
  have hmain : (load_model fs p st).st = st ∧ (load_model fs p st).deserialized = false := by
    unfold load_model at herr ⊢
    by_cases hc : st.cachedModel.isSome = true ∧ st.modelPath = some p
    · rw [if_pos hc] at herr
      simp at herr
    · rw [if_neg hc] at herr ⊢
      rcases hfs : fs p with _ | _ | mm
      · exact ⟨rfl, rfl⟩
      · exact ⟨rfl, rfl⟩
      · rw [hfs] at herr
        simp at herr
  refine ⟨hmain.1, hmain.2, ?_⟩
  intro m p0 hst
  subst hst
  simp [load_model]

/-- C10 witness: a failed load of `new.pkl` over a cache holding model 5
for `old.pkl` leaves the cache intact, and `old.pkl` still hits the cache. -/
theorem c10_witness :
    (load_model (fun _ => .absent) "new.pkl" ⟨some 5, some "old.pkl"⟩).st =
      ⟨some 5, some "old.pkl"⟩ ∧
    (load_model (fun _ => .absent) "new.pkl" ⟨some 5, some "old.pkl"⟩).deserialized = false ∧
    load_model (fun _ => .absent) "old.pkl" ⟨some 5, some "old.pkl"⟩ =
      ⟨.ok 5, ⟨some 5, some "old.pkl"⟩, false⟩ := by
  have h := c10_failed_load_preserves_cache (fun _ => .absent) "new.pkl"
    ⟨some 5, some "old.pkl"⟩ .fileNotFound (by decide)
  exact ⟨h.1, h.2.1, h.2.2 5 "old.pkl" rfl⟩
